import Mathlib

/-!
Verification of the flat-database framing and orchestration code
(`src/flat-database.cpp`): the generic `CFlatDB<T>::Read` / `CFlatDB<T>::Write`
framer and the `LoadFlatDB` / `DumpFlatDB` orchestrators.

Shallow embedding conventions:
* a byte is a `Nat` (values produced by the serializers are `< 256`);
* a file is a `List Nat`; an unopenable/missing file is `none : Option (List Nat)`;
* C++ exceptions thrown by stream reads become `Option` failures;
* the payload type `T` is abstract, accessed through the capability record
  `PayloadOps` (serialize, deserialize, `Clear`, `CheckAndRemove`), mirroring the
  capability contract the template code requires of `T`;
* the hash function (`Hash`, a 32-byte digest in the source) and the global
  configuration (`strMagicMessage`, `Params().MessageStart()`) are carried in a
  `FlatDBEnv` record.
-/

namespace FlatDB

/-- Little-endian byte encoding of `n` on `k` bytes (each byte reduced mod 256),
as used by the host serialization framework for multi-byte integers. -/
def toLE : Nat → Nat → List Nat
  | 0, _ => []
  | k + 1, n => n % 256 :: toLE k (n / 256)

/-- Little-endian byte decoding, inverse of `toLE` on in-range values. -/
def fromLE : List Nat → Nat
  | [] => 0
  | b :: l => b + 256 * fromLE l

/-- Modelled from the spec: the host serialization framework (`CDataStream`,
not part of this repository) length-prefixes strings with the Bitcoin-style
compact-size encoding. `serCompactSize n` is the canonical encoding of `n`. -/
def serCompactSize (n : Nat) : List Nat :=
  if n < 253 then [n]
  else if n < 65536 then 253 :: toLE 2 n
  else if n < 4294967296 then 254 :: toLE 4 n
  else 255 :: toLE 8 n

/-- Decoder for the compact-size encoding, consuming a prefix of the stream.
`none` models the exception thrown on a truncated or non-canonical encoding. -/
def deserCompactSize : List Nat → Option (Nat × List Nat)
  | [] => none
  | b :: rest =>
    if b < 253 then some (b, rest)
    else if b = 253 then
      if rest.length < 2 then none
      else
        let n := fromLE (rest.take 2)
        if n < 253 then none else some (n, rest.drop 2)
    else if b = 254 then
      if rest.length < 4 then none
      else
        let n := fromLE (rest.take 4)
        if n < 65536 then none else some (n, rest.drop 4)
    else if b = 255 then
      if rest.length < 8 then none
      else
        let n := fromLE (rest.take 8)
        if n < 4294967296 then none else some (n, rest.drop 8)
    else none

/-- Serialization of a byte string (`ssObj << strMagicMessage`): compact-size
length prefix followed by the raw bytes. -/
def serStr (s : List Nat) : List Nat :=
  serCompactSize s.length ++ s

/-- Deserialization of a byte string (`ssObj >> strMagicMessageTmp`): read the
length prefix, then that many bytes; `none` models the stream exception when
fewer bytes remain. -/
def deserStr (l : List Nat) : Option (List Nat × List Nat) :=
  match deserCompactSize l with
  | none => none
  | some (n, rest) =>
    if rest.length < n then none else some (rest.take n, rest.drop n)

/-- The result enumeration of `CFlatDB<T>::Read` (header enum
`CFlatDB_ReadResult`, used by lines 13-61 and 118-205 of the source). -/
inductive CFlatDB_ReadResult where
  | Ok
  | FileError
  | HashReadError
  | IncorrectHash
  | IncorrectMagicMessage
  | IncorrectMagicNumber
  | IncorrectFormat
deriving DecidableEq, Repr

open CFlatDB_ReadResult

/-- The capability contract the template code requires of the payload type `T`:
serialize (`ssObj << objToSave`), deserialize (`ssObj >> objToLoad`; `none`
models a thrown parse exception; the second component is the unconsumed rest of
the stream), `Clear()` and `CheckAndRemove()`. -/
structure PayloadOps (T : Type) where
  ser : T → List Nat
  deser : List Nat → Option (T × List Nat)
  clear : T → T
  checkAndRemove : T → T

/-- Environment of a `CFlatDB` instance: the hash function (`Hash`, producing a
32-byte `uint256` digest), the per-payload type tag `strMagicMessage`, and the
4-byte network tag `Params().MessageStart()`. -/
structure FlatDBEnv where
  hash : List Nat → List Nat
  hash_len : ∀ l, (hash l).length = 32
  strMagicMessage : List Nat
  messageStart : List Nat
  messageStart_len : messageStart.length = 4

/-- Observable outcome of one `CFlatDB<T>::Read` call: the returned result
code, the state of `objToLoad` afterwards, and whether the post-load
maintenance hook `CheckAndRemove` was invoked. -/
structure ReadOutcome (T : Type) where
  result : CFlatDB_ReadResult
  payload : T
  hookInvoked : Bool
deriving DecidableEq, Repr

/-- Lines 133-137 of the source: `int dataSize = fileSize - sizeof(uint256);`
followed by the clamp `if (dataSize < 0) dataSize = 0;`. -/
def readBodySize (fileSize : Nat) : Int :=
  if (fileSize : Int) - 32 < 0 then 0 else (fileSize : Int) - 32

/-- Lines 164-195 of the source: the try-block that parses the type tag,
checks it, parses the 4-byte network tag, checks it, and deserializes the
payload; any parse failure lands in the catch-block, which calls
`objToLoad.Clear()` and returns `IncorrectFormat`. -/
def parseBody {T : Type} (env : FlatDBEnv) (ops : PayloadOps T)
    (vchData : List Nat) (objToLoad : T) (fDryRun : Bool) : ReadOutcome T :=
  match deserStr vchData with
  | none => ⟨IncorrectFormat, ops.clear objToLoad, false⟩
  | some (strMagicMessageTmp, rest1) =>
    if strMagicMessageTmp ≠ env.strMagicMessage then
      ⟨IncorrectMagicMessage, objToLoad, false⟩
    else if rest1.length < 4 then
      ⟨IncorrectFormat, ops.clear objToLoad, false⟩
    else if rest1.take 4 ≠ env.messageStart then
      ⟨IncorrectMagicNumber, objToLoad, false⟩
    else
      match ops.deser (rest1.drop 4) with
      | none => ⟨IncorrectFormat, ops.clear objToLoad, false⟩
      | some (obj, _) =>
        if fDryRun then ⟨Ok, obj, false⟩
        else ⟨Ok, ops.checkAndRemove obj, true⟩

/-- `CFlatDB<T>::Read` (lines 118-205 of the source).  `file = none` models a
path that cannot be opened (`FileError`).  The body read of `dataSize` bytes
always succeeds since `dataSize ≤ fileSize`; the subsequent 32-byte checksum
read (`filein >> hashIn`) throws iff fewer than 32 bytes remain, giving
`HashReadError`.  Then the checksum is recomputed and compared
(`IncorrectHash` on mismatch) before `parseBody` interprets the buffer. -/
def Read {T : Type} (env : FlatDBEnv) (ops : PayloadOps T)
    (file : Option (List Nat)) (objToLoad : T) (fDryRun : Bool) : ReadOutcome T :=
  match file with
  | none => ⟨FileError, objToLoad, false⟩
  | some bytes =>
    let dataSize := (readBodySize bytes.length).toNat
    let vchData := bytes.take dataSize
    let restBytes := bytes.drop dataSize
    if restBytes.length < 32 then ⟨HashReadError, objToLoad, false⟩
    else
      let hashIn := restBytes.take 32
      if hashIn ≠ env.hash vchData then ⟨IncorrectHash, objToLoad, false⟩
      else parseBody env ops vchData objToLoad fDryRun

/-- The framed byte image produced for tag bytes `tag`, network-tag bytes
`netTag` and payload bytes `payloadBytes`: the serialized header and payload
followed by the 32-byte hash of everything preceding it. -/
def mkFrame (env : FlatDBEnv) (tag netTag payloadBytes : List Nat) : List Nat :=
  let ss := serStr tag ++ (netTag ++ payloadBytes)
  ss ++ env.hash ss

/-- `CFlatDB<T>::Write` (lines 82-115 of the source), successful path: the
file contents written, `strMagicMessage`, `Params().MessageStart()` and the
serialized payload in that order, with the hash of those bytes appended. -/
def Write {T : Type} (env : FlatDBEnv) (ops : PayloadOps T) (objToSave : T) :
    List Nat :=
  mkFrame env env.strMagicMessage env.messageStart (ops.ser objToSave)

/-- The shared abort decision of `LoadFlatDB` / `DumpFlatDB` (lines 14-28 and
46-58 of the source), mirroring the nested branches: `FileError` logs and
proceeds; any other non-`Ok` result proceeds when it is `IncorrectFormat` and
otherwise returns `false` (abort). -/
def readAborts (r : CFlatDB_ReadResult) : Bool :=
  if r = FileError then false
  else if r ≠ Ok then
    if r = IncorrectFormat then false else true
  else false

/-- `LoadFlatDB` (lines 10-34 of the source): a policy-check
`flatdb.Read(objToLoad)` (the header declares `fDryRun = false` by default;
modelled from the spec: Load calls Read with dryRun=false); on abort return
`false`, otherwise a second unconditional `flatdb.Read(objToLoad)` on the same
object, then return `true`.  The result pairs the returned `Bool` with the
final state of `objToLoad`. -/
def LoadFlatDB {T : Type} (env : FlatDBEnv) (ops : PayloadOps T)
    (file : Option (List Nat)) (objToLoad : T) : Bool × T :=
  let r := Read env ops file objToLoad false
  if readAborts r.result then (false, r.payload)
  else
    let r2 := Read env ops file r.payload false
    (true, r2.payload)

/-- Observable outcome of one `DumpFlatDB` call: the returned `Bool`, the file
at the configured path afterwards, and the final state of `objToSave`. -/
structure DumpOutcome (T : Type) where
  success : Bool
  file : Option (List Nat)
  payload : T
deriving DecidableEq, Repr

/-- `DumpFlatDB` (lines 36-65 of the source): a dry-run verification
`flatdb.Read(objToSave, true)` on the caller's own object; on abort return
`false` with the file untouched; otherwise `flatdb.Write(objToSave)` writes
the (possibly overwritten by the dry-run read) `objToSave` and returns
`true`. -/
def DumpFlatDB {T : Type} (env : FlatDBEnv) (ops : PayloadOps T)
    (file : Option (List Nat)) (objToSave : T) : DumpOutcome T :=
  let r := Read env ops file objToSave true
  if readAborts r.result then ⟨false, file, r.payload⟩
  else ⟨true, some (Write env ops r.payload), r.payload⟩

/-- Lines 164-195 of the source, as a failure predicate: `true` iff the
try-block of `Read` throws on this buffer, i.e. iff `parseBody` lands in the
catch-block (`IncorrectFormat`).  Tag mismatches are returns, not throws, so
they yield `false`. -/
def parseFails {T : Type} (env : FlatDBEnv) (ops : PayloadOps T)
    (vchData : List Nat) : Bool :=
  match deserStr vchData with
  | none => true
  | some (strMagicMessageTmp, rest1) =>
    if strMagicMessageTmp ≠ env.strMagicMessage then false
    else if rest1.length < 4 then true
    else if rest1.take 4 ≠ env.messageStart then false
    else (ops.deser (rest1.drop 4)).isNone

/-- Concrete 32-byte digest for witnesses: 32 copies of the buffer length
mod 256 (collisions are irrelevant to the claims checked on it). -/
def testHash (l : List Nat) : List Nat :=
  List.replicate 32 (l.length % 256)

/-- Concrete environment for witnesses: type tag `[77]`, network tag
`[11, 22, 33, 44]`. -/
def testEnv : FlatDBEnv where
  hash := testHash
  hash_len := fun l => by simp [testHash]
  strMagicMessage := [77]
  messageStart := [11, 22, 33, 44]
  messageStart_len := rfl

/-- Concrete payload capability for witnesses: a `Nat` serialized as its
single low byte; `Clear` resets to `0`; `CheckAndRemove` is the identity. -/
def natOps : PayloadOps Nat where
  ser := fun n => [n % 256]
  deser := fun l =>
    match l with
    | [] => none
    | b :: r => some (b, r)
  clear := fun _ => 0
  checkAndRemove := fun n => n

/-- A 33-byte file whose trailing 32 bytes are all `0` while `testHash` of its
1-byte body is 32 copies of `1`: its checksum does not match. -/
def badHashFile : List Nat :=
  List.replicate 33 0

end FlatDB

namespace FlatDB

open CFlatDB_ReadResult

theorem toLE_length (k n : Nat) : (toLE k n).length = k := by
  induction k generalizing n with
  | zero => rfl
  | succ k ih => simp [toLE, ih]

theorem fromLE_toLE : ∀ (k n : Nat), n < 256 ^ k → fromLE (toLE k n) = n
  | 0, n, h => by
    simp only [pow_zero, Nat.lt_one_iff] at h
    simp [toLE, fromLE, h]
  | k + 1, n, h => by
    have hdiv : n / 256 < 256 ^ k := by
      rw [Nat.div_lt_iff_lt_mul (by norm_num : 0 < 256)]
      calc n < 256 ^ (k + 1) := h
        _ = 256 ^ k * 256 := by ring
    simp only [toLE, fromLE, fromLE_toLE k (n / 256) hdiv]
    omega

theorem deserCompactSize_ser (n : Nat) (rest : List Nat)
    (hn : n < 18446744073709551616) :
    deserCompactSize (serCompactSize n ++ rest) = some (n, rest) := by
  by_cases h1 : n < 253
  · simp [serCompactSize, deserCompactSize, h1]
  · by_cases h2 : n < 65536
    · have hlen : (toLE 2 n).length = 2 := toLE_length 2 n
      simp only [serCompactSize, deserCompactSize, h1, if_neg, if_pos, h2,
        List.cons_append, List.length_append, hlen]
      simp [List.take_left' hlen, List.drop_left' hlen,
        fromLE_toLE 2 n (by omega), h1, hlen]
      try omega
    · by_cases h3 : n < 4294967296
      · have hlen : (toLE 4 n).length = 4 := toLE_length 4 n
        simp only [serCompactSize, deserCompactSize, h1, h2, h3,
          List.cons_append, List.length_append, hlen]
        simp [List.take_left' hlen, List.drop_left' hlen,
          fromLE_toLE 4 n (by omega), hlen]
        try omega
      · have hlen : (toLE 8 n).length = 8 := toLE_length 8 n
        simp only [serCompactSize, deserCompactSize, h1, h2, h3,
          List.cons_append, List.length_append, hlen]
        simp [List.take_left' hlen, List.drop_left' hlen,
          fromLE_toLE 8 n (by omega), hlen]
        try omega

theorem deserStr_serStr (s rest : List Nat)
    (hs : s.length < 18446744073709551616) :
    deserStr (serStr s ++ rest) = some (s, rest) := by
  unfold deserStr serStr
  rw [List.append_assoc, deserCompactSize_ser s.length (s ++ rest) hs]
  have hnl : ¬ (s ++ rest).length < s.length := by
    rw [List.length_append]; omega
  simp [hnl, List.take_left, List.drop_left]

theorem read_mkFrame {T : Type} (env : FlatDBEnv) (ops : PayloadOps T)
    (tag netTag payloadBytes : List Nat) (p : T) (d : Bool) :
    Read env ops (some (mkFrame env tag netTag payloadBytes)) p d =
      parseBody env ops (serStr tag ++ (netTag ++ payloadBytes)) p d := by
  simp only [mkFrame, Read]
  have hlen : (serStr tag ++ (netTag ++ payloadBytes) ++
      env.hash (serStr tag ++ (netTag ++ payloadBytes))).length =
      (serStr tag ++ (netTag ++ payloadBytes)).length + 32 := by
    rw [List.length_append, env.hash_len]
  have hbody : (readBodySize (serStr tag ++ (netTag ++ payloadBytes) ++
      env.hash (serStr tag ++ (netTag ++ payloadBytes))).length).toNat =
      (serStr tag ++ (netTag ++ payloadBytes)).length := by
    rw [hlen]; unfold readBodySize; split <;> omega
  rw [hbody, List.take_left, List.drop_left]
  have h32 : ¬ (env.hash (serStr tag ++ (netTag ++ payloadBytes))).length < 32 := by
    rw [env.hash_len]; omega
  rw [if_neg h32]
  have htk : (env.hash (serStr tag ++ (netTag ++ payloadBytes))).take 32 =
      env.hash (serStr tag ++ (netTag ++ payloadBytes)) :=
    List.take_of_length_le (by rw [env.hash_len])
  rw [htk]
  simp

theorem read_checksum_ok {T : Type} (env : FlatDBEnv) (ops : PayloadOps T)
    (bytes : List Nat) (p : T) (d : Bool)
    (h32 : 32 ≤ bytes.length)
    (hsum : bytes.drop (bytes.length - 32) =
      env.hash (bytes.take (bytes.length - 32))) :
    Read env ops (some bytes) p d =
      parseBody env ops (bytes.take (bytes.length - 32)) p d := by
  simp only [Read]
  have hbody : (readBodySize bytes.length).toNat = bytes.length - 32 := by
    unfold readBodySize; split <;> omega
  rw [hbody]
  have hrl : ¬ (bytes.drop (bytes.length - 32)).length < 32 := by
    rw [List.length_drop]; omega
  rw [if_neg hrl]
  have htk : (bytes.drop (bytes.length - 32)).take 32 =
      bytes.drop (bytes.length - 32) :=
    List.take_of_length_le (by rw [List.length_drop]; omega)
  rw [htk, hsum]
  simp

theorem read_checksum_bad {T : Type} (env : FlatDBEnv) (ops : PayloadOps T)
    (bytes : List Nat) (p : T) (d : Bool)
    (h32 : 32 ≤ bytes.length)
    (hbad : bytes.drop (bytes.length - 32) ≠
      env.hash (bytes.take (bytes.length - 32))) :
    Read env ops (some bytes) p d = ⟨IncorrectHash, p, false⟩ := by
  simp only [Read]
  have hbody : (readBodySize bytes.length).toNat = bytes.length - 32 := by
    unfold readBodySize; split <;> omega
  rw [hbody]
  have hrl : ¬ (bytes.drop (bytes.length - 32)).length < 32 := by
    rw [List.length_drop]; omega
  rw [if_neg hrl]
  have htk : (bytes.drop (bytes.length - 32)).take 32 =
      bytes.drop (bytes.length - 32) :=
    List.take_of_length_le (by rw [List.length_drop]; omega)
  rw [htk, if_pos hbad]

theorem parseBody_of_fails {T : Type} (env : FlatDBEnv) (ops : PayloadOps T)
    (vchData : List Nat) (p : T) (d : Bool)
    (h : parseFails env ops vchData = true) :
    parseBody env ops vchData p d = ⟨IncorrectFormat, ops.clear p, false⟩ := by
  unfold parseFails at h
  unfold parseBody
  cases hd : deserStr vchData with
  | none => rfl
  | some v =>
    obtain ⟨m, rest1⟩ := v
    rw [hd] at h
    dsimp only at h ⊢
    by_cases hm : m ≠ env.strMagicMessage
    · simp [hm] at h
    · rw [if_neg hm]
      rw [if_neg hm] at h
      by_cases hl : rest1.length < 4
      · rw [if_pos hl]
      · rw [if_neg hl] at h
        rw [if_neg hl]
        by_cases ht : rest1.take 4 ≠ env.messageStart
        · simp [ht] at h
        · rw [if_neg ht] at h
          rw [if_neg ht]
          cases hde : ops.deser (rest1.drop 4) with
          | none => rfl
          | some v2 => rw [hde] at h; simp at h

theorem read_frame_aux {T : Type} (env : FlatDBEnv) (ops : PayloadOps T)
    (file : Option (List Nat)) (p : T) (d : Bool) :
    ((Read env ops file p d).result ≠ Ok →
      (Read env ops file p d).result ≠ IncorrectFormat →
      Read env ops file p d = ⟨(Read env ops file p d).result, p, false⟩)
  ∧ ((Read env ops file p d).result = IncorrectFormat →
      Read env ops file p d = ⟨IncorrectFormat, ops.clear p, false⟩) := by
  cases file with
  | none => simp [Read]
  | some bytes =>
    simp only [Read, parseBody]
    repeat' split
    all_goals simp_all

theorem read_payload_indep {T : Type} (env : FlatDBEnv) (ops : PayloadOps T)
    (file : Option (List Nat)) (p q : T) (d : Bool) :
    (Read env ops file p d).result = (Read env ops file q d).result
  ∧ ((Read env ops file p d).result = Ok →
      (Read env ops file p d).payload = (Read env ops file q d).payload) := by
  cases file with
  | none => simp [Read]
  | some bytes =>
    simp only [Read, parseBody]
    repeat' split
    all_goals simp_all

/-- C1 (counterexample): on a 33-byte file whose stored checksum does not
match, `Read` returns `IncorrectHash` — a non-Ok code other than
`HashReadError` — and yet `LoadFlatDB` returns `false` (aborts) and
`DumpFlatDB` returns `false` without writing, contradicting the claim that
every non-Ok code other than `HashReadError` proceeds. -/
theorem incorrectHash_aborts_cex :
    (Read testEnv natOps (some badHashFile) 7 false).result = IncorrectHash
  ∧ LoadFlatDB testEnv natOps (some badHashFile) 7 = (false, 7)
  ∧ DumpFlatDB testEnv natOps (some badHashFile) 7 =
      ⟨false, some badHashFile, 7⟩ := by
  decide

/-- C1 (amended): for both `LoadFlatDB` and `DumpFlatDB`, the call proceeds
(returns `true`, and for `DumpFlatDB` goes on to `Write`) exactly when the
verification `Read` returns `Ok`, `FileError` or `IncorrectFormat`; every
other non-Ok code — `HashReadError`, `IncorrectHash`,
`IncorrectMagicMessage`, `IncorrectMagicNumber` — aborts (returns
`false`). -/
theorem load_dump_abort_policy {T : Type} (env : FlatDBEnv)
    (ops : PayloadOps T) (file : Option (List Nat)) (p : T) :
    ((LoadFlatDB env ops file p).1 = true ↔
      ((Read env ops file p false).result = Ok ∨
       (Read env ops file p false).result = FileError ∨
       (Read env ops file p false).result = IncorrectFormat))
  ∧ ((DumpFlatDB env ops file p).success = true ↔
      ((Read env ops file p true).result = Ok ∨
       (Read env ops file p true).result = FileError ∨
       (Read env ops file p true).result = IncorrectFormat)) := by
  constructor
  · cases hres : (Read env ops file p false).result <;>
      simp [LoadFlatDB, readAborts, hres]
  · cases hres : (Read env ops file p true).result <;>
      simp [DumpFlatDB, readAborts, hres]

/-- C2 (counterexample): on the 1-byte file `[0]` — strictly smaller than the
32-byte checksum — `Read` returns `HashReadError` (the checksum read itself
throws), not `IncorrectHash` as the claim states. -/
theorem short_file_cex :
    Read testEnv natOps (some [0]) 7 false = ⟨HashReadError, 7, false⟩
  ∧ (Read testEnv natOps (some [0]) 7 false).result ≠ IncorrectHash := by
  decide

/-- C2 (amended): for every file whose total size is strictly smaller than
the checksum size (32 bytes), `Read` computes a body length clamped to 0,
does not crash, and returns `HashReadError` (the read of the trailing
checksum itself fails), leaving the payload untouched. -/
theorem short_file_hashReadError {T : Type} (env : FlatDBEnv)
    (ops : PayloadOps T) (bytes : List Nat) (p : T) (d : Bool)
    (h : bytes.length < 32) :
    readBodySize bytes.length = 0
  ∧ Read env ops (some bytes) p d = ⟨HashReadError, p, false⟩ := by
  have h0 : readBodySize bytes.length = 0 := by
    unfold readBodySize; split <;> omega
  refine ⟨h0, ?_⟩
  simp only [Read, h0]
  have hlt : (bytes.drop (Int.toNat 0)).length < 32 := by
    simpa using h
  rw [if_pos hlt]

/-- C2 (witness): the amended claim at the concrete file `[0]`. -/
theorem short_file_hashReadError_witness :
    readBodySize ([0] : List Nat).length = 0
  ∧ Read testEnv natOps (some [0]) 7 false = ⟨HashReadError, 7, false⟩ :=
  short_file_hashReadError testEnv natOps [0] 7 false (by decide)

/-- C3: when the pre-flight verification `Read` in `DumpFlatDB` returns
`HashReadError`, `DumpFlatDB` aborts (returns `false`) without calling
`Write`: the on-disk file is exactly the one before the call and the payload
is untouched. -/
theorem dump_aborts_on_hashReadError {T : Type} (env : FlatDBEnv)
    (ops : PayloadOps T) (file : Option (List Nat)) (p : T)
    (h : (Read env ops file p true).result = HashReadError) :
    DumpFlatDB env ops file p = ⟨false, file, p⟩ := by
  have hp := (read_frame_aux env ops file p true).1
    (by rw [h]; simp) (by rw [h]; simp)
  rw [h] at hp
  simp [DumpFlatDB, hp, readAborts]

/-- C3 (witness): `DumpFlatDB` on the 1-byte file `[0]`, whose verification
read yields `HashReadError`. -/
theorem dump_aborts_on_hashReadError_witness :
    DumpFlatDB testEnv natOps (some [0]) 7 = ⟨false, some [0], 7⟩ :=
  dump_aborts_on_hashReadError testEnv natOps (some [0]) 7 (by decide)

/-- C4: on any file of at least 32 bytes whose trailing 32-byte checksum
differs from the hash recomputed over the body, `Read` returns
`IncorrectHash` immediately — whatever the body bytes contain, no tag is
interpreted — and the payload is not mutated. -/
theorem checksum_before_tags {T : Type} (env : FlatDBEnv)
    (ops : PayloadOps T) (bytes : List Nat) (p : T) (d : Bool)
    (h32 : 32 ≤ bytes.length)
    (hbad : bytes.drop (bytes.length - 32) ≠
      env.hash (bytes.take (bytes.length - 32))) :
    Read env ops (some bytes) p d = ⟨IncorrectHash, p, false⟩ :=
  read_checksum_bad env ops bytes p d h32 hbad

/-- C4 (witness): the corrupt 33-byte file `badHashFile`. -/
theorem checksum_before_tags_witness :
    Read testEnv natOps (some badHashFile) 7 false =
      ⟨IncorrectHash, 7, false⟩ :=
  checksum_before_tags testEnv natOps badHashFile 7 false
    (by decide) (by decide)

/-- C5: after the checksum passes, the type tag is checked before the network
tag.  A frame written with type tag `tagA ≠ strMagicMessage` yields
`IncorrectMagicMessage` (not `IncorrectFormat`), whatever its network-tag
bytes; a frame whose type tag matches but whose 4 network-tag bytes differ
from `MessageStart` yields `IncorrectMagicNumber`.  (The length bounds state
that the tags fit in the 64-bit sizes of the host serializer.) -/
theorem tag_order_checks {T : Type} (env : FlatDBEnv) (ops : PayloadOps T)
    (tagA netTag payloadBytes : List Nat) (p : T) (d : Bool)
    (htagA : tagA.length < 18446744073709551616)
    (htagM : env.strMagicMessage.length < 18446744073709551616) :
    (tagA ≠ env.strMagicMessage →
      Read env ops (some (mkFrame env tagA netTag payloadBytes)) p d =
        ⟨IncorrectMagicMessage, p, false⟩)
  ∧ (netTag.length = 4 → netTag ≠ env.messageStart →
      Read env ops
          (some (mkFrame env env.strMagicMessage netTag payloadBytes)) p d =
        ⟨IncorrectMagicNumber, p, false⟩) := by
  constructor
  · intro hne
    rw [read_mkFrame]
    unfold parseBody
    rw [deserStr_serStr tagA (netTag ++ payloadBytes) htagA]
    simp [hne]
  · intro hnet hne
    rw [read_mkFrame]
    unfold parseBody
    rw [deserStr_serStr env.strMagicMessage (netTag ++ payloadBytes) htagM]
    have hlen4 : ¬ (netTag ++ payloadBytes).length < 4 := by
      rw [List.length_append, hnet]; omega
    simp [hlen4, List.take_left' hnet, hne]
    omega

/-- C5 (witness): a frame with wrong type tag `[99]` (expected `[77]`), and a
frame with the right type tag but network tag `[9, 9, 9, 9]` instead of
`[11, 22, 33, 44]`. -/
theorem tag_order_checks_witness :
    Read testEnv natOps (some (mkFrame testEnv [99] [11, 22, 33, 44] [5]))
        7 false = ⟨IncorrectMagicMessage, 7, false⟩
  ∧ Read testEnv natOps (some (mkFrame testEnv [77] [9, 9, 9, 9] [5]))
        7 false = ⟨IncorrectMagicNumber, 7, false⟩ :=
  ⟨(tag_order_checks testEnv natOps [99] [11, 22, 33, 44] [5] 7 false
      (by decide) (by decide)).1 (by decide),
   (tag_order_checks testEnv natOps [77] [9, 9, 9, 9] [5] 7 false
      (by decide) (by decide)).2 (by decide) (by decide)⟩

/-- C6: whenever the checksum over the body passes but parsing throws — the
type-tag string fails to parse, fewer than 4 bytes remain for the network
tag, or the payload deserialization fails (`parseFails`) — `Read` resets the
payload to empty (`Clear`) and returns `IncorrectFormat`. -/
theorem parse_failure_clears {T : Type} (env : FlatDBEnv)
    (ops : PayloadOps T) (bytes : List Nat) (p : T) (d : Bool)
    (h32 : 32 ≤ bytes.length)
    (hsum : bytes.drop (bytes.length - 32) =
      env.hash (bytes.take (bytes.length - 32)))
    (hfail : parseFails env ops (bytes.take (bytes.length - 32)) = true) :
    Read env ops (some bytes) p d = ⟨IncorrectFormat, ops.clear p, false⟩ := by
  rw [read_checksum_ok env ops bytes p d h32 hsum]
  exact parseBody_of_fails env ops _ p d hfail

/-- C6 (witness): a well-checksummed frame with correct tags and an empty
payload region, which `natOps.deser` rejects; the payload `7` is cleared
to `0`. -/
theorem parse_failure_clears_witness :
    Read testEnv natOps (some (mkFrame testEnv [77] [11, 22, 33, 44] []))
        7 false = ⟨IncorrectFormat, 0, false⟩ :=
  parse_failure_clears testEnv natOps
    (mkFrame testEnv [77] [11, 22, 33, 44] []) 7 false
    (by decide) (by decide) (by decide)

/-- C7: round trip.  For any payload `P` whose deserializer inverts its
serializer and whose maintenance hook fixes it (the payload's own equality
semantics), writing `P` with `Write` and reading the resulting file back with
`dryRun = false`, the same expected tags, and any prior in-memory state `q`
returns `Ok` and leaves the payload equal to `P` (the hook having run). -/
theorem write_read_roundtrip {T : Type} (env : FlatDBEnv)
    (ops : PayloadOps T) (P q : T)
    (htag : env.strMagicMessage.length < 18446744073709551616)
    (hdeser : ∀ extra, ops.deser (ops.ser P ++ extra) = some (P, extra))
    (hmaint : ops.checkAndRemove P = P) :
    Read env ops (some (Write env ops P)) q false = ⟨Ok, P, true⟩ := by
  unfold Write
  rw [read_mkFrame]
  unfold parseBody
  rw [deserStr_serStr env.strMagicMessage (env.messageStart ++ ops.ser P) htag]
  have h4 := env.messageStart_len
  have hlen4 : ¬ (env.messageStart ++ ops.ser P).length < 4 := by
    rw [List.length_append, h4]; omega
  have hde : ops.deser ((env.messageStart ++ ops.ser P).drop 4) =
      some (P, []) := by
    rw [List.drop_left' h4]
    have h := hdeser []
    rwa [List.append_nil] at h
  simp [hlen4, List.take_left' h4, hde, hmaint]
  omega

/-- C7 (witness): the payload `5` written and read back through `testEnv`. -/
theorem write_read_roundtrip_witness :
    Read testEnv natOps (some (Write testEnv natOps 5)) 7 false =
      ⟨Ok, 5, true⟩ :=
  write_read_roundtrip testEnv natOps 5 7 (by decide)
    (fun extra => rfl) rfl

/-- C8: `Read` invokes the payload's post-load maintenance hook
(`CheckAndRemove`) iff the read returns `Ok` and `fDryRun` is false; in
particular a dry-run `Read` never invokes the hook, whatever the outcome. -/
theorem hook_iff_ok_nondry {T : Type} (env : FlatDBEnv) (ops : PayloadOps T)
    (file : Option (List Nat)) (p : T) (d : Bool) :
    (Read env ops file p d).hookInvoked = true ↔
      ((Read env ops file p d).result = Ok ∧ d = false) := by
  cases file with
  | none => simp [Read]
  | some bytes =>
    simp only [Read, parseBody]
    repeat' split
    all_goals simp_all

/-- C9: whenever `Read` returns `FileError`, `HashReadError`,
`IncorrectHash`, `IncorrectMagicMessage` or `IncorrectMagicNumber`, the
payload object is left exactly as it was before the call (and the hook does
not run); when it returns `IncorrectFormat`, the payload is cleared — the
only non-Ok result that mutates it. -/
theorem read_error_frame {T : Type} (env : FlatDBEnv) (ops : PayloadOps T)
    (file : Option (List Nat)) (p : T) (d : Bool) :
    (((Read env ops file p d).result = FileError ∨
      (Read env ops file p d).result = HashReadError ∨
      (Read env ops file p d).result = IncorrectHash ∨
      (Read env ops file p d).result = IncorrectMagicMessage ∨
      (Read env ops file p d).result = IncorrectMagicNumber) →
      Read env ops file p d = ⟨(Read env ops file p d).result, p, false⟩)
  ∧ ((Read env ops file p d).result = IncorrectFormat →
      Read env ops file p d = ⟨IncorrectFormat, ops.clear p, false⟩) := by
  refine ⟨fun hd => (read_frame_aux env ops file p d).1 ?_ ?_,
    (read_frame_aux env ops file p d).2⟩
  · rcases hd with h | h | h | h | h <;> rw [h] <;> simp
  · rcases hd with h | h | h | h | h <;> rw [h] <;> simp

/-- C9 (witness): a missing file (`FileError`, payload `7` kept) and a
well-checksummed frame with an empty payload region (`IncorrectFormat`,
payload cleared to `0`). -/
theorem read_error_frame_witness :
    Read testEnv natOps none 7 false = ⟨FileError, 7, false⟩
  ∧ Read testEnv natOps (some (mkFrame testEnv [77] [11, 22, 33, 44] []))
      7 true = ⟨IncorrectFormat, 0, false⟩ :=
  ⟨(read_error_frame testEnv natOps none 7 false).1 (Or.inl (by decide)),
   (read_error_frame testEnv natOps
      (some (mkFrame testEnv [77] [11, 22, 33, 44] [])) 7 true).2 (by decide)⟩

/-- C10: `DumpFlatDB` hands the caller's own payload object to the dry-run
verification `Read`; when the on-disk file verifies `Ok`, the caller's
payload has been replaced by the file's decoded contents before `Write`
runs, so the bytes written are `Write` of that decoded payload — which is
determined by the file alone, independent of the state `p` the caller asked
to save. -/
theorem dump_overwrites_payload {T : Type} (env : FlatDBEnv)
    (ops : PayloadOps T) (file : Option (List Nat)) (p q : T)
    (hok : (Read env ops file p true).result = Ok) :
    DumpFlatDB env ops file p =
      ⟨true, some (Write env ops (Read env ops file p true).payload),
        (Read env ops file p true).payload⟩
  ∧ (Read env ops file p true).payload =
      (Read env ops file q true).payload := by
  constructor
  · simp [DumpFlatDB, hok, readAborts]
  · exact (read_payload_indep env ops file p q true).2 hok

/-- C10 (witness): a file holding the payload `5`; the caller asks to save
`7` but the dump writes `5` back, and the decoded payload is the same
whether the caller's state was `7` or `3`. -/
theorem dump_overwrites_payload_witness :
    DumpFlatDB testEnv natOps (some (Write testEnv natOps 5)) 7 =
      ⟨true,
        some (Write testEnv natOps
          (Read testEnv natOps (some (Write testEnv natOps 5)) 7
            true).payload),
        (Read testEnv natOps (some (Write testEnv natOps 5)) 7
          true).payload⟩
  ∧ (Read testEnv natOps (some (Write testEnv natOps 5)) 7 true).payload =
      (Read testEnv natOps (some (Write testEnv natOps 5)) 3 true).payload :=
  dump_overwrites_payload testEnv natOps (some (Write testEnv natOps 5)) 7 3
    (by decide)

end FlatDB
